import Mathlib

/-! Formal model of the Blocke puzzle game (src/script.js).

The model is a direct shallow embedding of the gameplay core: the mulberry32
generator works on integers reduced modulo 2^32 (JavaScript coerces every
bitwise operand with ToInt32/ToUint32, and all intermediate sums stay exact
in doubles, so the integer model is bit-for-bit faithful); the
presentation-only `reveal` decay counter is modelled as a rational number.
Tile states, archetype names and direction names are strings in the source
drawn from fixed finite sets; they are modelled as inductive enumerations.
The mutable 2D `grid` array indexed as `grid[y][x]` is modelled as a function
from (y, x) coordinates to tiles, updated pointwise; `createGame` builds the
underlying rows sequentially, consuming random draws in exactly the order of
the source's nested loops. DOM and canvas writes are dropped; the gameplay
state mutations of every handler are kept. -/

namespace Blocke

/-- Tile states: the strings "neutral", "safe", "wall", "exit" in the source. -/
inductive TileState where
  | neutral
  | safe
  | wall
  | exit
deriving DecidableEq, Repr

/-- Direction names: the strings "north", "east", "south", "west". -/
inductive DirName where
  | north
  | east
  | south
  | west
deriving DecidableEq, Repr

/-- Archetype names: "third-exit", "north-entry", "sequence", "frequency",
"backtrack" in the source. -/
inductive ArchetypeName where
  | thirdExit
  | northEntry
  | sequence
  | frequency
  | backtrack
deriving DecidableEq, Repr

/-- One entry of the source's `directions` array. -/
structure Dir where
  dx : Int
  dy : Int
  name : DirName
deriving DecidableEq, Repr

/-- `const gridSize = 18`. -/
def gridSize : Int := 18

/-- The `directions` array, in source order. -/
def directions : List Dir :=
  [⟨0, -1, .north⟩, ⟨1, 0, .east⟩, ⟨0, 1, .south⟩, ⟨-1, 0, .west⟩]

/-- A grid tile, as pushed by `createGame`.  `lastEntry` is `null` initially,
modelled by `none`; `reveal` is a float decay counter, modelled exactly as a
rational. -/
structure Tile where
  x : Int
  y : Int
  archetype : ArchetypeName
  state : TileState
  leaveCount : Nat
  visits : Nat
  lastEntry : Option DirName
  reveal : ℚ
deriving DecidableEq, Repr

/-- The four session thresholds randomized by `createGame`. -/
structure Thresholds where
  thirdExit : Nat
  frequencyWindow : Nat
  frequencyCount : Nat
  backtrackWindow : Nat
deriving DecidableEq, Repr

/-- The game session object returned by `createGame`.  `rngState` is the
internal counter of the stored `rng` closure (its only mutable state);
`recentDirections` entries are direction-name strings or "none", modelled as
`Option DirName`. -/
structure Game where
  rngState : Int
  grid : Int → Int → Tile
  player : Int × Int
  exit : Int × Int
  moveCount : Nat
  crystallized : Nat
  recentDirections : List (Option DirName)
  recentArchetypes : List ArchetypeName
  recentPositions : List (Int × Int)
  thresholds : Thresholds
  archetypePool : List ArchetypeName
  message : String
  revealTimer : Nat

/-- The additive constant of mulberry32. -/
def mulberryInc : Int := 0x6d2b79f5

/-- One state update of the mulberry32 closure: `a += 0x6d2b79f5`. -/
def nextA (a : Int) : Int := a + mulberryInc

/-- The output of one mulberry32 call whose post-increment state is `a`,
scaled by 2^32: the call returns this value divided by 4294967296.  Every
JavaScript bitwise operator reduces its operands modulo 2^32, which the
explicit `% 4294967296` reductions mirror. -/
def mulberry32 (a : Int) : Nat :=
  let t0 : Nat := (a % 4294967296).toNat
  let t1 : Nat := ((t0 ^^^ (t0 >>> 15)) * (t0 ||| 1)) % 4294967296
  let t2 : Nat := t1 ^^^ ((t1 + ((t1 ^^^ (t1 >>> 7)) * (t1 ||| 61)) % 4294967296) % 4294967296)
  t2 ^^^ (t2 >>> 14)

/-- `Math.floor(rng() * k)` for the call with post-increment state `a`: the
double product `rng() * k` is exact for the small `k` used by the source, so
its floor is the integer division below. -/
def randInt (a : Int) (k : Nat) : Nat := mulberry32 a * k / 4294967296

/-- The destructuring swap `[array[i], array[j]] = [array[j], array[i]]`. -/
def listSwap {α : Type} (l : List α) (i j : Nat) (d : α) : List α :=
  let vi := l.getD i d
  let vj := l.getD j d
  (l.set i vj).set j vi

/-- The loop of `shuffle`, indexed by the loop counter `i` running from
`length - 1` down to `1`; each iteration draws `j = Math.floor(rng() * (i + 1))`
and swaps positions `i` and `j`. -/
def shuffleAux {α : Type} (d : α) : List α → Int → Nat → List α × Int
  | l, a, 0 => (l, a)
  | l, a, i + 1 =>
    let a2 := nextA a
    let j := randInt a2 (i + 2)
    shuffleAux d (listSwap l (i + 1) j d) a2 i

/-- `shuffle(list, rng)`: Fisher-Yates on a copy of the list. -/
def shuffle {α : Type} (l : List α) (d : α) (a : Int) : List α × Int :=
  shuffleAux d l a (l.length - 1)

/-- `list.slice(-n)`: the last `n` elements (the whole list when shorter). -/
def sliceLast {α : Type} (n : Nat) (l : List α) : List α := l.drop (l.length - n)

/-- `arr.every((d, _, arr) => d === arr[0])`: every element equals the first;
vacuously true on the empty array. -/
def allEqHead {α : Type} [DecidableEq α] (l : List α) : Bool :=
  match l with
  | [] => true
  | a :: _ => l.all fun d => decide (d = a)

/-- The five archetype trigger predicates, dispatched by archetype name just
as `archetypes.find((rule) => rule.name === tile.archetype)` does (the five
names are distinct, so the lookup is total). -/
def trigger (name : ArchetypeName) (tile : Tile) (g : Game) : Bool :=
  match name with
  | .thirdExit => decide (g.thresholds.thirdExit ≤ tile.leaveCount)
  | .northEntry => decide (tile.lastEntry = some .north)
  | .sequence => allEqHead (sliceLast 2 g.recentDirections)
  | .frequency =>
    let recent := sliceLast g.thresholds.frequencyWindow g.recentArchetypes
    decide (g.thresholds.frequencyCount ≤ (recent.filter fun e => decide (e = tile.archetype)).length)
  | .backtrack =>
    let recent := sliceLast g.thresholds.backtrackWindow g.recentPositions
    recent.any fun p => decide (p.1 = tile.x ∧ p.2 = tile.y)

/-- Pointwise update of the grid at row `y`, column `x` (the model of mutating
the tile object `grid[y][x]` in place). -/
def updateTile (grid : Int → Int → Tile) (y x : Int) (f : Tile → Tile) :
    Int → Int → Tile :=
  fun y2 x2 => if y2 = y ∧ x2 = x then f (grid y x) else grid y2 x2

/-- `applyTileRule(tile)` for the tile at `grid[y][x]`: a no-op on wall and
exit tiles, otherwise the tile's own trigger decides crystallization, which
sets the state to wall, refreshes `reveal`, bumps the crystallized counter
and flashes a message. -/
def applyTileRule (g : Game) (y x : Int) : Game :=
  let tile := g.grid y x
  if tile.state = .wall ∨ tile.state = .exit then g
  else if trigger tile.archetype tile g then
    { g with
      grid := updateTile g.grid y x fun t => { t with state := .wall, reveal := 1 },
      crystallized := g.crystallized + 1,
      message := "A path crystallizes behind you." }
  else g

/-- `directions.find((dir) => dir.x === dx && dir.y === dy)?.name`. -/
def findDir (dx dy : Int) : Option DirName :=
  (directions.find? fun dir => decide (dir.dx = dx ∧ dir.dy = dy)).map Dir.name

/-- Push onto a history buffer, then `shift()` once if the length now exceeds
the cap. -/
def pushCap {α : Type} (cap : Nat) (l : List α) (a : α) : List α :=
  let l2 := l ++ [a]
  if cap < l2.length then l2.drop 1 else l2

/-- `isTrapped(player, grid)`: every direction is off-grid or a wall. -/
def isTrapped (player : Int × Int) (grid : Int → Int → Tile) : Bool :=
  directions.all fun dir =>
    let nx := player.1 + dir.dx
    let ny := player.2 + dir.dy
    if nx < 0 ∨ ny < 0 ∨ gridSize ≤ nx ∨ gridSize ≤ ny then true
    else decide ((grid ny nx).state = .wall)

/-- The body of the `for (const dir of directions)` loop inside `pathExists`:
skip off-grid, already-visited and wall neighbors, otherwise mark the
neighbor visited and append it to the queue.  The accumulator carries the
visited matrix and the queue. -/
def bfsStep (grid : Int → Int → Tile) (current : Int × Int)
    (acc : (Int → Int → Bool) × List (Int × Int)) (dir : Dir) :
    (Int → Int → Bool) × List (Int × Int) :=
  let nx := current.1 + dir.dx
  let ny := current.2 + dir.dy
  if nx < 0 ∨ ny < 0 ∨ gridSize ≤ nx ∨ gridSize ≤ ny then acc
  else if acc.1 ny nx then acc
  else if (grid ny nx).state = .wall then acc
  else (fun y x => if y = ny ∧ x = nx then true else acc.1 y x, acc.2 ++ [(nx, ny)])

/-- The `while` loop of `pathExists`, with the visited matrix as a boolean
function and explicit fuel.  Each iteration pops one queue element, and at
most `18 * 18 = 324` elements are ever enqueued (each enqueue marks a fresh
cell visited), so fuel 324 makes the fueled loop equal to the source loop. -/
def bfsAux (grid : Int → Int → Tile) (goal : Int × Int) :
    Nat → List (Int × Int) → (Int → Int → Bool) → Bool
  | 0, _, _ => false
  | _ + 1, [], _ => false
  | fuel + 1, current :: rest, visited =>
    if current = goal then true
    else
      let step := directions.foldl (bfsStep grid current) (visited, rest)
      bfsAux grid goal fuel step.2 step.1

/-- `pathExists(start, goal, grid)`: breadth-first search over non-wall tiles
starting from `start`, with `start` pre-marked visited. -/
def pathExists (start goal : Int × Int) (grid : Int → Int → Tile) : Bool :=
  bfsAux grid goal 324 [start] fun y x => decide (y = start.2 ∧ x = start.1)

/-- The status string produced by `checkFailure`: the reachability check
first, and only in its `else` branch the local-entrapment check. -/
def checkMsg (g : Game) : String :=
  if !pathExists g.player g.exit g.grid then "The maze has sealed. No route remains."
  else if isTrapped g.player g.grid then "You are sealed inside your own pattern."
  else g.message

/-- `checkFailure()`: both checks are pure reads and `flashMessage` only
stores the string, so the whole call is a message update. -/
def checkFailure (g : Game) : Game := { g with message := checkMsg g }

/-- The per-tile reveal decay performed by `draw()`. -/
def decayTile (t : Tile) : Tile :=
  if 0 < t.reveal then { t with reveal := max 0 (t.reveal - 1 / 50) } else t

/-- The gameplay-state part of `draw()`: decrement `revealTimer` when
positive and decay every tile's `reveal`; canvas and DOM writes are dropped. -/
def draw (g : Game) : Game :=
  { g with
    revealTimer := if 0 < g.revealTimer then g.revealTimer - 1 else g.revealTimer,
    grid := fun y x => decayTile (g.grid y x) }

/-- The `reveal()` button handler: set the presentation countdown. -/
def reveal (g : Game) : Game := { g with revealTimer := 60 }

/-- `attemptMove(dx, dy)` on an active session, following the source line by
line: bounds guard, wall rejection, vacated-tile rule, destination entry
bookkeeping, player move, the three history pushes with their caps, counter
and message updates, the win early-return, the neutral-to-safe promotion,
`checkFailure()`, and the closing `draw()`. -/
def attemptMove (g : Game) (dx dy : Int) : Game :=
  let px := g.player.1
  let py := g.player.2
  let nx := px + dx
  let ny := py + dy
  if nx < 0 ∨ ny < 0 ∨ gridSize ≤ nx ∨ gridSize ≤ ny then g
  else if (g.grid ny nx).state = .wall then
    { g with message := "Crystallized path blocks the way." }
  else
    let dir := findDir dx dy
    let g1 := { g with grid := updateTile g.grid py px fun t => { t with leaveCount := t.leaveCount + 1 } }
    let g2 := applyTileRule g1 py px
    let g3 := { g2 with grid := updateTile g2.grid ny nx fun t => { t with lastEntry := dir, visits := t.visits + 1 } }
    let g4 := { g3 with
      player := (nx, ny),
      recentDirections := pushCap 12 g3.recentDirections dir,
      recentArchetypes := pushCap 20 g3.recentArchetypes (g3.grid ny nx).archetype,
      recentPositions := pushCap 14 g3.recentPositions (nx, ny),
      moveCount := g3.moveCount + 1,
      message := "Learning..." }
    if (g4.grid ny nx).state = .exit then
      draw { g4 with message := "Exit reached. The maze remembers your path." }
    else
      let g5 :=
        if (g4.grid ny nx).state = .neutral then
          { g4 with grid := updateTile g4.grid ny nx fun t => { t with state := .safe } }
        else g4
      draw (checkFailure g5)

/-- The `if (!game) return;` guard of `attemptMove`, on the nullable module
state. -/
def attemptMoveOpt (og : Option Game) (dx dy : Int) : Option Game :=
  match og with
  | none => none
  | some g => some (attemptMove g dx dy)

/-- The `archetypes` array reduced to its names, in source order. -/
def archetypesList : List ArchetypeName :=
  [.thirdExit, .northEntry, .sequence, .frequency, .backtrack]

/-- The tile object pushed for cell `(x, y)` with the given archetype. -/
def freshTile (x y : Int) (arch : ArchetypeName) : Tile :=
  { x := x, y := y, archetype := arch, state := .neutral,
    leaveCount := 0, visits := 0, lastEntry := none, reveal := 0 }

/-- The default used for out-of-range grid reads; the source never performs
one (every access is behind a bounds check). -/
def defaultTile : Tile := freshTile 0 0 .thirdExit

/-- The inner `x` loop of the grid construction: build `fuel` consecutive
tiles of row `y` starting at column `x`, drawing one archetype per tile from
the pool. -/
def buildRowFrom (pool : List ArchetypeName) (y : Int) :
    Nat → Nat → Int → List Tile × Int
  | _, 0, a => ([], a)
  | x, fuel + 1, a =>
    let a2 := nextA a
    let arch := pool.getD (randInt a2 pool.length) .thirdExit
    let t := freshTile (x : Int) y arch
    let rest := buildRowFrom pool y (x + 1) fuel a2
    (t :: rest.1, rest.2)

/-- The outer `y` loop of the grid construction: build `fuel` consecutive
rows starting at row `y`. -/
def buildRowsFrom (pool : List ArchetypeName) :
    Nat → Nat → Int → List (List Tile) × Int
  | _, 0, a => ([], a)
  | y, fuel + 1, a =>
    let row := buildRowFrom pool (y : Int) 0 18 a
    let rest := buildRowsFrom pool (y + 1) fuel row.2
    (row.1 :: rest.1, rest.2)

/-- Read the built 2D array as a grid function, behind the same bounds the
source always checks before indexing. -/
def lookupGrid (rows : List (List Tile)) : Int → Int → Tile :=
  fun y x =>
    if y < 0 ∨ x < 0 ∨ gridSize ≤ y ∨ gridSize ≤ x then defaultTile
    else (rows.getD y.toNat []).getD x.toNat defaultTile

/-- `createGame(seed)`: seed conversion, archetype-pool shuffle, the four
thresholds, the grid loops, and the player/exit placement, consuming random
draws in exactly the source order.  `Math.floor(seed * 1e9)` is the floor of
the rational `seed * 10^9`, computed directly on the numerator and
denominator with integer floor division. -/
def createGame (seed : ℚ) : Game :=
  let a0 : Int := (seed.num * 1000000000).fdiv (seed.den : Int)
  let pool := shuffle archetypesList .thirdExit a0
  let archetypePool := pool.1.take 4
  let a2 := nextA pool.2
  let thirdExit := 3 + randInt a2 2
  let a3 := nextA a2
  let frequencyWindow := 6 + randInt a3 4
  let a4 := nextA a3
  let frequencyCount := 3 + randInt a4 2
  let a5 := nextA a4
  let backtrackWindow := 4 + randInt a5 3
  let rows := buildRowsFrom archetypePool 0 18 a5
  let grid0 := lookupGrid rows.1
  let grid1 := updateTile grid0 1 1 fun t => { t with state := .safe }
  let grid2 := updateTile grid1 16 16 fun t => { t with state := .exit }
  { rngState := rows.2, grid := grid2, player := (1, 1), exit := (16, 16),
    moveCount := 0, crystallized := 0, recentDirections := [],
    recentArchetypes := [], recentPositions := [],
    thresholds := { thirdExit := thirdExit, frequencyWindow := frequencyWindow,
                    frequencyCount := frequencyCount, backtrackWindow := backtrackWindow },
    archetypePool := archetypePool, message := "Learning...", revealTimer := 0 }

/-- One external event of the core: a key-press move, the reveal button, or
an animation tick. -/
inductive Op where
  | move (dx dy : Int)
  | reveal
  | draw

/-- Dispatch one external event to its handler. -/
def stepOp (g : Game) : Op → Game
  | .move dx dy => attemptMove g dx dy
  | .reveal => reveal g
  | .draw => draw g

/-- A sequence of `attemptMove` calls. -/
def runMoves (g : Game) (ms : List (Int × Int)) : Game :=
  ms.foldl (fun h m => attemptMove h m.1 m.2) g

/-- A sequence of external events. -/
def runOps (g : Game) (os : List Op) : Game :=
  os.foldl stepOp g

/-- The number of grid tiles currently in state wall. -/
def wallCount (grid : Int → Int → Tile) : Nat :=
  ∑ y ∈ Finset.range 18, ∑ x ∈ Finset.range 18,
    if (grid (y : Int) (x : Int)).state = .wall then 1 else 0

/-- The `attemptMove` bounds guard, as the in-bounds predicate. -/
def inBounds (x y : Int) : Prop := ¬(x < 0 ∨ y < 0 ∨ gridSize ≤ x ∨ gridSize ≤ y)

instance (x y : Int) : Decidable (inBounds x y) := by
  unfold inBounds
  infer_instance

/-- An all-neutral grid of third-exit tiles carrying their own coordinates,
the base for the concrete session states below. -/
def plainGrid : Int → Int → Tile := fun y x => freshTile x y .thirdExit

/-- Concrete thresholds for the hand-built sessions: `thirdExit` is kept high
so that no third-exit tile fires during the short concrete runs. -/
def exThresholds : Thresholds :=
  { thirdExit := 5, frequencyWindow := 6, frequencyCount := 3, backtrackWindow := 4 }

/-- A session state whose player, at (1,0), is about to step west into the
corner (0,0): the vacated tile (1,0) is a north-entry tile last entered from
the north (so it crystallizes on leaving), and (0,1) is already a wall, so
the corner becomes fully enclosed. -/
def exGrid1 : Int → Int → Tile := fun y x =>
  if y = 0 ∧ x = 1 then { freshTile 1 0 .northEntry with state := .safe, lastEntry := some .north }
  else if y = 1 ∧ x = 0 then { freshTile 0 1 .thirdExit with state := .wall }
  else if y = 16 ∧ x = 16 then { freshTile 16 16 .thirdExit with state := .exit }
  else plainGrid y x

/-- The session around `exGrid1`. -/
def exG1 : Game :=
  { rngState := 0, grid := exGrid1, player := (1, 0), exit := (16, 16),
    moveCount := 0, crystallized := 1, recentDirections := [],
    recentArchetypes := [], recentPositions := [], thresholds := exThresholds,
    archetypePool := [.thirdExit, .northEntry, .sequence, .backtrack],
    message := "Learning...", revealTimer := 0 }

/-- A session state whose player, at (2,1), is about to move back west onto
the backtrack tile (1,1), whose coordinates sit in `recentPositions`. -/
def exGrid7 : Int → Int → Tile := fun y x =>
  if y = 1 ∧ x = 1 then { freshTile 1 1 .backtrack with state := .safe }
  else if y = 1 ∧ x = 2 then { freshTile 2 1 .thirdExit with state := .safe }
  else if y = 16 ∧ x = 16 then { freshTile 16 16 .thirdExit with state := .exit }
  else plainGrid y x

/-- The session around `exGrid7`. -/
def exG7 : Game :=
  { rngState := 0, grid := exGrid7, player := (2, 1), exit := (16, 16),
    moveCount := 2, crystallized := 0, recentDirections := [some .east, some .west],
    recentArchetypes := [.thirdExit, .backtrack],
    recentPositions := [(1, 1), (2, 1)], thresholds := exThresholds,
    archetypePool := [.thirdExit, .northEntry, .sequence, .backtrack],
    message := "Learning...", revealTimer := 0 }

/-- A session state whose player, at (1,1), is about to make two consecutive
accepted moves south; the tile (1,2) vacated by the second of them is a
sequence tile.  The directions recorded before the repeats differ. -/
def exGrid8 : Int → Int → Tile := fun y x =>
  if y = 2 ∧ x = 1 then freshTile 1 2 .sequence
  else if y = 3 ∧ x = 1 then freshTile 1 3 .sequence
  else if y = 1 ∧ x = 1 then { freshTile 1 1 .thirdExit with state := .safe }
  else if y = 16 ∧ x = 16 then { freshTile 16 16 .thirdExit with state := .exit }
  else plainGrid y x

/-- The session around `exGrid8`. -/
def exG8 : Game :=
  { rngState := 0, grid := exGrid8, player := (1, 1), exit := (16, 16),
    moveCount := 2, crystallized := 0, recentDirections := [some .north, some .east],
    recentArchetypes := [.thirdExit, .thirdExit],
    recentPositions := [(1, 0), (1, 1)], thresholds := exThresholds,
    archetypePool := [.thirdExit, .northEntry, .sequence, .backtrack],
    message := "Learning...", revealTimer := 0 }

@[simp]
theorem updateTile_apply (grid : Int → Int → Tile) (y x y2 x2 : Int) (f : Tile → Tile) :
    updateTile grid y x f y2 x2 = if y2 = y ∧ x2 = x then f (grid y x) else grid y2 x2 := rfl

@[simp]
theorem decayTile_state (t : Tile) : (decayTile t).state = t.state := by
  unfold decayTile
  split <;> rfl

theorem draw_grid_state (g : Game) (y x : Int) :
    ((draw g).grid y x).state = (g.grid y x).state := by
  simp [draw]

theorem applyTileRule_skeleton (g : Game) (y x : Int) :
    (applyTileRule g y x).moveCount = g.moveCount
    ∧ (applyTileRule g y x).player = g.player
    ∧ (applyTileRule g y x).exit = g.exit
    ∧ (applyTileRule g y x).recentDirections = g.recentDirections
    ∧ (applyTileRule g y x).recentArchetypes = g.recentArchetypes
    ∧ (applyTileRule g y x).recentPositions = g.recentPositions
    ∧ (applyTileRule g y x).thresholds = g.thresholds := by
  unfold applyTileRule
  dsimp only
  split
  · exact ⟨rfl, rfl, rfl, rfl, rfl, rfl, rfl⟩
  split
  · exact ⟨rfl, rfl, rfl, rfl, rfl, rfl, rfl⟩
  · exact ⟨rfl, rfl, rfl, rfl, rfl, rfl, rfl⟩

theorem applyTileRule_grid_off (g : Game) (y x y2 x2 : Int) (h : ¬(y2 = y ∧ x2 = x)) :
    (applyTileRule g y x).grid y2 x2 = g.grid y2 x2 := by
  unfold applyTileRule
  dsimp only
  split
  · rfl
  split
  · simp [updateTile, h]
  · rfl

theorem applyTileRule_archetype (g : Game) (y x y2 x2 : Int) :
    ((applyTileRule g y x).grid y2 x2).archetype = (g.grid y2 x2).archetype := by
  unfold applyTileRule
  dsimp only
  split
  · rfl
  split
  · simp only [updateTile_apply]
    split
    · rename_i hp
      rw [hp.1, hp.2]
    · rfl
  · rfl

theorem applyTileRule_state_frozen (g : Game) (y x y2 x2 : Int) (s : TileState)
    (hs : s = .wall ∨ s = .exit) (h : ((g.grid y2 x2).state = s)) :
    ((applyTileRule g y x).grid y2 x2).state = s := by
  unfold applyTileRule
  dsimp only
  split
  · exact h
  split
  · rename_i hguard htrig
    simp only [updateTile_apply]
    split
    · rename_i hp
      rw [hp.1, hp.2] at h
      rcases hs with hs | hs <;> rw [hs] at h <;> simp [h] at hguard
    · exact h
  · exact h

theorem trigger_of_fields (n : ArchetypeName) (t : Tile) (g1 g2 : Game)
    (h1 : g1.recentDirections = g2.recentDirections)
    (h2 : g1.recentArchetypes = g2.recentArchetypes)
    (h3 : g1.recentPositions = g2.recentPositions)
    (h4 : g1.thresholds = g2.thresholds) :
    trigger n t g1 = trigger n t g2 := by
  cases n <;> simp [trigger, h1, h2, h3, h4]

theorem updateTile_state_of_preserving (grid : Int → Int → Tile) (y x : Int)
    (f : Tile → Tile) (hf : ∀ t, (f t).state = t.state) (y2 x2 : Int) :
    ((updateTile grid y x f) y2 x2).state = (grid y2 x2).state := by
  simp only [updateTile_apply]
  split
  · rename_i hp
    rw [hp.1, hp.2, hf]
  · rfl

theorem attemptMove_state_frozen (g : Game) (dx dy y x : Int) (s : TileState)
    (hs : s = .wall ∨ s = .exit) (h : (g.grid y x).state = s) :
    ((attemptMove g dx dy).grid y x).state = s := by
  unfold attemptMove
  dsimp only
  split
  · exact h
  split
  · exact h
  have h2 : ((applyTileRule { g with grid := updateTile g.grid g.player.2 g.player.1 (fun t => { t with leaveCount := t.leaveCount + 1 }) } g.player.2 g.player.1).grid y x).state = s := by
    refine applyTileRule_state_frozen _ _ _ _ _ _ hs ?_
    rw [updateTile_state_of_preserving]
    · exact h
    · intro t
      rfl
  have h3 : ∀ dnm : Option DirName, ((updateTile (applyTileRule { g with grid := updateTile g.grid g.player.2 g.player.1 (fun t => { t with leaveCount := t.leaveCount + 1 }) } g.player.2 g.player.1).grid
      (g.player.2 + dy) (g.player.1 + dx)
      (fun t => { t with lastEntry := dnm, visits := t.visits + 1 })) y x).state = s := by
    intro dnm
    rw [updateTile_state_of_preserving]
    · exact h2
    · intro t
      rfl
  split
  · rw [draw_grid_state]
    exact h3 _
  · rw [draw_grid_state]
    show ((let g5 := _; g5 : Game).grid y x).state = s
    dsimp only [checkFailure]
    split
    · simp only [updateTile_apply]
      split
      · rename_i hnc hp
        exfalso
        obtain ⟨hy, hx⟩ := hp
        subst hy
        subst hx
        rw [h3 (findDir dx dy)] at hnc
        rcases hs with hs | hs <;> subst hs <;> exact absurd hnc (by decide)
      · exact h2
    · exact h3 _

theorem runMoves_state_frozen (g : Game) (y x : Int) (ms : List (Int × Int))
    (s : TileState) (hs : s = .wall ∨ s = .exit) (h : (g.grid y x).state = s) :
    ((runMoves g ms).grid y x).state = s := by
  induction ms generalizing g with
  | nil => exact h
  | cons m ms ih =>
    simp only [runMoves, List.foldl_cons]
    exact ih _ (attemptMove_state_frozen g m.1 m.2 y x s hs h)

/-- C3: for every session and every tile, once that tile is in state wall, no
sequence of subsequent attemptMove calls (accepted or rejected) changes its
state to anything other than wall. -/
theorem wall_is_permanent (g : Game) (y x : Int) (ms : List (Int × Int))
    (h : (g.grid y x).state = .wall) :
    ((runMoves g ms).grid y x).state = .wall :=
  runMoves_state_frozen g y x ms .wall (Or.inl rfl) h

/-- Witness for C3 at a concrete session: the wall at (0,1) of `exG1` is
still a wall after a further accepted move. -/
theorem wall_is_permanent_witness :
    ((runMoves exG1 [(0, 1)]).grid 1 0).state = .wall :=
  wall_is_permanent exG1 1 0 [(0, 1)] (by decide)

/-- C2: a move attempt whose in-bounds destination tile is a wall changes
nothing but the status message, which becomes the blocked message: player
position, moveCount, every tile and all three history buffers are those of
the original session. -/
theorem blocked_move_changes_only_message (g : Game) (dx dy : Int)
    (hin : inBounds (g.player.1 + dx) (g.player.2 + dy))
    (hwall : (g.grid (g.player.2 + dy) (g.player.1 + dx)).state = .wall) :
    attemptMove g dx dy = { g with message := "Crystallized path blocks the way." } := by
  unfold attemptMove
  dsimp only
  rw [if_neg hin, if_pos hwall]

/-- Witness for C2: moving from (1,0) onto the wall at (0,1) of `exG1`. -/
theorem blocked_move_changes_only_message_witness :
    attemptMove exG1 (-1) 1 = { exG1 with message := "Crystallized path blocks the way." } :=
  blocked_move_changes_only_message exG1 (-1) 1 (by decide) (by decide)

/-- C6: moveCount is incremented by exactly 1 on an accepted move (session
active, destination in bounds and not a wall) and unchanged in every other
case: no session, out-of-bounds destination, wall destination. -/
theorem moveCount_increment_rule :
    (∀ dx dy : Int, attemptMoveOpt none dx dy = none)
    ∧ (∀ (g : Game) (dx dy : Int), ¬inBounds (g.player.1 + dx) (g.player.2 + dy) →
        (attemptMove g dx dy).moveCount = g.moveCount)
    ∧ (∀ (g : Game) (dx dy : Int), inBounds (g.player.1 + dx) (g.player.2 + dy) →
        (g.grid (g.player.2 + dy) (g.player.1 + dx)).state = .wall →
        (attemptMove g dx dy).moveCount = g.moveCount)
    ∧ (∀ (g : Game) (dx dy : Int), inBounds (g.player.1 + dx) (g.player.2 + dy) →
        (g.grid (g.player.2 + dy) (g.player.1 + dx)).state ≠ .wall →
        (attemptMove g dx dy).moveCount = g.moveCount + 1) := by
  refine ⟨fun dx dy => rfl, fun g dx dy h => ?_, fun g dx dy h1 h2 => ?_, fun g dx dy h1 h2 => ?_⟩
  · unfold attemptMove
    dsimp only
    rw [if_pos (Decidable.of_not_not h)]
  · unfold attemptMove
    dsimp only
    rw [if_neg h1, if_pos h2]
  · unfold attemptMove
    dsimp only
    rw [if_neg h1, if_neg h2]
    split
    · simp [draw, (applyTileRule_skeleton _ _ _).1]
    · split <;> simp [draw, checkFailure, (applyTileRule_skeleton _ _ _).1]

/-- Witness for C6: the four cases at concrete inputs around `exG1`. -/
theorem moveCount_increment_rule_witness :
    attemptMoveOpt none 1 0 = none
    ∧ (attemptMove exG1 0 (-1)).moveCount = exG1.moveCount
    ∧ (attemptMove exG1 (-1) 1).moveCount = exG1.moveCount
    ∧ (attemptMove exG1 1 0).moveCount = exG1.moveCount + 1 :=
  ⟨moveCount_increment_rule.1 1 0,
   moveCount_increment_rule.2.1 exG1 0 (-1) (by decide),
   moveCount_increment_rule.2.2.1 exG1 (-1) 1 (by decide) (by decide),
   moveCount_increment_rule.2.2.2 exG1 1 0 (by decide) (by decide)⟩


theorem attemptMove_exit_const (g : Game) (dx dy : Int) :
    (attemptMove g dx dy).exit = g.exit := by
  unfold attemptMove
  dsimp only
  split
  · rfl
  split
  · rfl
  split
  · simp [draw, (applyTileRule_skeleton _ _ _).2.2.1]
  · split <;> simp [draw, checkFailure, (applyTileRule_skeleton _ _ _).2.2.1]

theorem runMoves_exit_const (g : Game) (ms : List (Int × Int)) :
    (runMoves g ms).exit = g.exit := by
  induction ms generalizing g with
  | nil => rfl
  | cons m ms ih =>
    simp only [runMoves, List.foldl_cons]
    exact (ih (attemptMove g m.1 m.2)).trans (attemptMove_exit_const g m.1 m.2)

theorem createGame_exit_state (seed : ℚ) :
    ((createGame seed).grid 16 16).state = .exit := by
  unfold createGame
  dsimp only
  simp [updateTile]

/-- C4: the tile at the exit coordinate (16,16) always has state exit across
any sequence of moves from a fresh session, and applyTileRule on a tile in
state exit is a no-op (the archetype rule of the exit tile never fires). -/
theorem exit_tile_invariant :
    (∀ (g : Game) (y x : Int), (g.grid y x).state = .exit → applyTileRule g y x = g)
    ∧ (∀ (seed : ℚ) (ms : List (Int × Int)),
        (runMoves (createGame seed) ms).exit = (16, 16)
        ∧ ((runMoves (createGame seed) ms).grid 16 16).state = .exit) := by
  refine ⟨fun g y x h => ?_, fun seed ms => ⟨?_, ?_⟩⟩
  · unfold applyTileRule
    dsimp only
    rw [if_pos (Or.inr h)]
  · rw [runMoves_exit_const]
    rfl
  · exact runMoves_state_frozen _ _ _ _ _ (Or.inr rfl) (createGame_exit_state seed)

/-- Witness for C4: the rule is a no-op on the concrete exit tile of `exG1`,
and the exit tile of the seed-0 session is still an exit tile after a move. -/
theorem exit_tile_invariant_witness :
    applyTileRule exG1 16 16 = exG1
    ∧ ((runMoves (createGame 0) [(1, 0)]).grid 16 16).state = .exit :=
  ⟨exit_tile_invariant.1 exG1 16 16 (by decide),
   (exit_tile_invariant.2 0 [(1, 0)]).2⟩

/-- C5: two sessions created with the same seed have identical grids
(per-tile, hence identical archetypes and initial states), identical
thresholds and identical archetype pools: createGame consumes a fully
deterministic mulberry32 stream. -/
theorem createGame_deterministic (s1 s2 : ℚ) (h : s1 = s2) :
    (∀ y x : Int, (createGame s1).grid y x = (createGame s2).grid y x)
    ∧ (createGame s1).thresholds = (createGame s2).thresholds
    ∧ (createGame s1).archetypePool = (createGame s2).archetypePool := by
  subst h
  exact ⟨fun y x => rfl, rfl, rfl⟩

/-- Witness for C5 at the concrete seed 7. -/
theorem createGame_deterministic_witness :
    (createGame 7).grid 1 1 = (createGame 7).grid 1 1
    ∧ (createGame 7).thresholds = (createGame 7).thresholds
    ∧ (createGame 7).archetypePool = (createGame 7).archetypePool :=
  ⟨(createGame_deterministic 7 7 rfl).1 1 1,
   (createGame_deterministic 7 7 rfl).2.1,
   (createGame_deterministic 7 7 rfl).2.2⟩

theorem bfsAux_nil (grid : Int → Int → Tile) (goal : Int × Int) (fuel : Nat)
    (visited : Int → Int → Bool) : bfsAux grid goal fuel [] visited = false := by
  cases fuel <;> rfl

theorem bfsAux_cons (grid : Int → Int → Tile) (goal : Int × Int) (fuel : Nat)
    (current : Int × Int) (rest : List (Int × Int)) (visited : Int → Int → Bool) :
    bfsAux grid goal (fuel + 1) (current :: rest) visited =
      if current = goal then true
      else
        bfsAux grid goal fuel (directions.foldl (bfsStep grid current) (visited, rest)).2
          (directions.foldl (bfsStep grid current) (visited, rest)).1 := rfl

theorem bfsStep_of_blocked (grid : Int → Int → Tile) (c : Int × Int)
    (acc : (Int → Int → Bool) × List (Int × Int)) (dir : Dir)
    (h : (if c.1 + dir.dx < 0 ∨ c.2 + dir.dy < 0 ∨ gridSize ≤ c.1 + dir.dx ∨ gridSize ≤ c.2 + dir.dy
          then true
          else decide ((grid (c.2 + dir.dy) (c.1 + dir.dx)).state = TileState.wall)) = true) :
    bfsStep grid c acc dir = acc := by
  unfold bfsStep
  dsimp only
  split
  · rfl
  · rename_i hoob
    rw [if_neg hoob] at h
    rw [if_pos (of_decide_eq_true h)]
    split
    · rfl
    · rfl

theorem foldl_bfsStep_of_blocked (grid : Int → Int → Tile) (c : Int × Int)
    (l : List Dir) (hl : ∀ d ∈ l, ∀ acc, bfsStep grid c acc d = acc)
    (acc : (Int → Int → Bool) × List (Int × Int)) :
    l.foldl (bfsStep grid c) acc = acc := by
  induction l generalizing acc with
  | nil => rfl
  | cons d l ih =>
    rw [List.foldl_cons, hl d (List.mem_cons_self d l)]
    exact ih (fun e he a => hl e (List.mem_cons_of_mem d he) a) acc

theorem pathExists_of_trapped (grid : Int → Int → Tile) (start goal : Int × Int)
    (hne : start ≠ goal) (htrap : isTrapped start grid = true) :
    pathExists start goal grid = false := by
  unfold isTrapped at htrap
  rw [List.all_eq_true] at htrap
  have hl : ∀ d ∈ directions, ∀ acc, bfsStep grid start acc d = acc := by
    intro d hd acc
    exact bfsStep_of_blocked grid start acc d (htrap d hd)
  unfold pathExists
  rw [show (324 : Nat) = 323 + 1 from rfl, bfsAux_cons, if_neg hne,
    foldl_bfsStep_of_blocked grid start directions hl]
  exact bfsAux_nil _ _ _ _

theorem isTrapped_decay (p : Int × Int) (G : Int → Int → Tile) :
    isTrapped p (fun y x => decayTile (G y x)) = isTrapped p G := by
  unfold isTrapped
  simp only [decayTile_state]

/-- C1 amended: after a non-winning accepted move that leaves every
4-neighbor of the player's tile a wall or off-grid, the status message is
the reachability message, not the entrapment message: checkFailure runs the
reachability check first and the entrapment check only in its else branch,
and a locally trapped player distinct from the exit has no path to it. -/
theorem trapped_after_move_sealed_message (g : Game) (dx dy : Int)
    (hin : inBounds (g.player.1 + dx) (g.player.2 + dy))
    (hwall : ¬(g.grid (g.player.2 + dy) (g.player.1 + dx)).state = .wall)
    (hnotexit : ¬(g.grid (g.player.2 + dy) (g.player.1 + dx)).state = .exit)
    (hmoved : ¬(dx = 0 ∧ dy = 0))
    (hgoal : (g.player.1 + dx, g.player.2 + dy) ≠ g.exit)
    (htrap : isTrapped (attemptMove g dx dy).player (attemptMove g dx dy).grid = true) :
    (attemptMove g dx dy).message = "The maze has sealed. No route remains." := by
  have hoff : ¬(g.player.2 + dy = g.player.2 ∧ g.player.1 + dx = g.player.1) := by
    intro h
    exact hmoved ⟨by omega, by omega⟩
  unfold attemptMove at htrap ⊢
  dsimp only at htrap ⊢
  rw [if_neg hin, if_neg hwall] at htrap ⊢
  have hdest : ((updateTile (applyTileRule { g with grid := updateTile g.grid g.player.2 g.player.1 (fun t => { t with leaveCount := t.leaveCount + 1 }) } g.player.2 g.player.1).grid (g.player.2 + dy) (g.player.1 + dx) (fun t => { t with lastEntry := findDir dx dy, visits := t.visits + 1 })) (g.player.2 + dy) (g.player.1 + dx)).state = (g.grid (g.player.2 + dy) (g.player.1 + dx)).state := by
    rw [updateTile_apply, if_pos ⟨rfl, rfl⟩]
    show ((applyTileRule _ g.player.2 g.player.1).grid (g.player.2 + dy) (g.player.1 + dx)).state = _
    rw [applyTileRule_grid_off _ _ _ _ _ hoff]
    show (updateTile g.grid g.player.2 g.player.1 _ (g.player.2 + dy) (g.player.1 + dx)).state = _
    rw [updateTile_apply, if_neg hoff]
  rw [if_neg (fun hcon => hnotexit (hdest.symm.trans hcon))] at htrap ⊢
  split
  · rename_i hnc
    rw [if_pos hnc] at htrap
    dsimp only [draw, checkFailure] at htrap ⊢
    rw [isTrapped_decay] at htrap
    unfold checkMsg
    dsimp only
    rw [(applyTileRule_skeleton _ _ _).2.2.1]
    dsimp only
    rw [pathExists_of_trapped _ _ _ hgoal htrap]
    simp
  · rename_i hnc
    rw [if_neg hnc] at htrap
    dsimp only [draw, checkFailure] at htrap ⊢
    rw [isTrapped_decay] at htrap
    unfold checkMsg
    dsimp only
    rw [(applyTileRule_skeleton _ _ _).2.2.1]
    dsimp only
    rw [pathExists_of_trapped _ _ _ hgoal htrap]
    simp

/-- Witness for the amended C1 at the concrete session `exG1`. -/
theorem trapped_after_move_sealed_message_witness :
    (attemptMove exG1 (-1) 0).message = "The maze has sealed. No route remains." :=
  trapped_after_move_sealed_message exG1 (-1) 0 (by decide) (by decide) (by decide)
    (by decide) (by decide) (by decide)

/-- Counterexample to C1 as stated: from `exG1`, the accepted non-winning
move west leaves the player at (0,0) with every 4-neighbor a wall or
off-grid, yet the status message is not the entrapment message but the
sealed/no-route message. -/
theorem entrapment_message_counterexample :
    (attemptMove exG1 (-1) 0).player = (0, 0)
    ∧ (attemptMove exG1 (-1) 0).moveCount = exG1.moveCount + 1
    ∧ isTrapped (attemptMove exG1 (-1) 0).player (attemptMove exG1 (-1) 0).grid = true
    ∧ (attemptMove exG1 (-1) 0).message ≠ "You are sealed inside your own pattern."
    ∧ (attemptMove exG1 (-1) 0).message = "The maze has sealed. No route remains." := by
  refine ⟨by decide, by decide, by decide, by decide, by decide⟩


theorem applyTileRule_fires (g : Game) (y x : Int)
    (hguard : ¬(g.grid y x).state = .wall ∧ ¬(g.grid y x).state = .exit)
    (htrig : trigger (g.grid y x).archetype (g.grid y x) g = true) :
    ((applyTileRule g y x).grid y x).state = .wall := by
  unfold applyTileRule
  dsimp only
  rw [if_neg (not_or.mpr hguard), if_pos htrig]
  show ((updateTile g.grid y x _) y x).state = TileState.wall
  rw [updateTile_apply, if_pos ⟨rfl, rfl⟩]

theorem vacated_tile_crystallizes (g : Game) (dx dy : Int)
    (hin : inBounds (g.player.1 + dx) (g.player.2 + dy))
    (hwall : ¬(g.grid (g.player.2 + dy) (g.player.1 + dx)).state = .wall)
    (hcurw : ¬(g.grid g.player.2 g.player.1).state = .wall)
    (hcure : ¬(g.grid g.player.2 g.player.1).state = .exit)
    (htrig : trigger (g.grid g.player.2 g.player.1).archetype
      { g.grid g.player.2 g.player.1 with leaveCount := (g.grid g.player.2 g.player.1).leaveCount + 1 } g = true) :
    ((attemptMove g dx dy).grid g.player.2 g.player.1).state = .wall := by
  unfold attemptMove
  dsimp only
  rw [if_neg hin, if_neg hwall]
  have htileG1 : (updateTile g.grid g.player.2 g.player.1 (fun t => { t with leaveCount := t.leaveCount + 1 })) g.player.2 g.player.1 = { g.grid g.player.2 g.player.1 with leaveCount := (g.grid g.player.2 g.player.1).leaveCount + 1 } := by
    rw [updateTile_apply, if_pos ⟨rfl, rfl⟩]
  have h2 : ((applyTileRule { g with grid := updateTile g.grid g.player.2 g.player.1 (fun t => { t with leaveCount := t.leaveCount + 1 }) } g.player.2 g.player.1).grid g.player.2 g.player.1).state = .wall := by
    apply applyTileRule_fires
    · show ¬((updateTile g.grid g.player.2 g.player.1 _) g.player.2 g.player.1).state = .wall ∧ ¬((updateTile g.grid g.player.2 g.player.1 _) g.player.2 g.player.1).state = .exit
      rw [htileG1]
      exact ⟨hcurw, hcure⟩
    · show trigger ((updateTile g.grid g.player.2 g.player.1 _) g.player.2 g.player.1).archetype ((updateTile g.grid g.player.2 g.player.1 _) g.player.2 g.player.1) _ = true
      rw [htileG1]
      exact (trigger_of_fields _ _ { g with grid := updateTile g.grid g.player.2 g.player.1 (fun t => { t with leaveCount := t.leaveCount + 1 }) } g rfl rfl rfl rfl).trans htrig
  have h3 : ∀ dnm : Option DirName, ((updateTile (applyTileRule { g with grid := updateTile g.grid g.player.2 g.player.1 (fun t => { t with leaveCount := t.leaveCount + 1 }) } g.player.2 g.player.1).grid
      (g.player.2 + dy) (g.player.1 + dx)
      (fun t => { t with lastEntry := dnm, visits := t.visits + 1 })) g.player.2 g.player.1).state = .wall := by
    intro dnm
    rw [updateTile_state_of_preserving]
    · exact h2
    · intro t
      rfl
  split
  · rw [draw_grid_state]
    exact h3 _
  · rw [draw_grid_state]
    show ((let g5 := _; g5 : Game).grid g.player.2 g.player.1).state = TileState.wall
    dsimp only [checkFailure]
    split
    · simp only [updateTile_apply]
      split
      · rename_i hnc hp
        exfalso
        obtain ⟨hy, hx⟩ := hp
        have h4 := h3 (findDir dx dy)
        rw [← hy, ← hx] at hnc h4
        rw [h4] at hnc
        exact absurd hnc (by decide)
      · exact h2
    · exact h3 _

/-- C7 amended: a backtrack tile crystallizes when the player vacates it
while its coordinates sit among the last backtrackWindow entries of
recentPositions (the rule engine runs on the vacated tile with the history
recorded before the current move). -/
theorem backtrack_tile_crystallizes_on_vacate (g : Game) (dx dy : Int)
    (hin : inBounds (g.player.1 + dx) (g.player.2 + dy))
    (hwall : ¬(g.grid (g.player.2 + dy) (g.player.1 + dx)).state = .wall)
    (harch : (g.grid g.player.2 g.player.1).archetype = .backtrack)
    (hcurw : ¬(g.grid g.player.2 g.player.1).state = .wall)
    (hcure : ¬(g.grid g.player.2 g.player.1).state = .exit)
    (hmem : ((g.grid g.player.2 g.player.1).x, (g.grid g.player.2 g.player.1).y)
      ∈ sliceLast g.thresholds.backtrackWindow g.recentPositions) :
    ((attemptMove g dx dy).grid g.player.2 g.player.1).state = .wall := by
  refine vacated_tile_crystallizes g dx dy hin hwall hcurw hcure ?_
  rw [harch]
  simp only [trigger]
  rw [List.any_eq_true]
  exact ⟨_, hmem, decide_eq_true ⟨rfl, rfl⟩⟩

/-- Witness for the amended C7: after moving back onto the backtrack tile
(1,1) of `exG7`, the next move east vacates it and crystallizes it. -/
theorem backtrack_tile_crystallizes_on_vacate_witness :
    ((attemptMove (attemptMove exG7 (-1) 0) 1 0).grid 1 1).state = .wall :=
  backtrack_tile_crystallizes_on_vacate (attemptMove exG7 (-1) 0) 1 0
    (by decide) (by decide) (by decide) (by decide) (by decide) (by decide)

/-- Counterexample to C7 as stated: the move back west onto the backtrack
tile (1,1) of `exG7` is accepted, the tile's coordinates sit among the last
backtrackWindow entries of recentPositions, yet the tile does not
crystallize on that move — the rule engine runs only on the vacated tile. -/
theorem backtrack_reentry_counterexample :
    (exG7.grid 1 1).archetype = .backtrack
    ∧ ((exG7.grid 1 1).x, (exG7.grid 1 1).y)
      ∈ sliceLast exG7.thresholds.backtrackWindow exG7.recentPositions
    ∧ (exG7.grid 1 1).state ≠ .wall
    ∧ (attemptMove exG7 (-1) 0).player = (1, 1)
    ∧ ((attemptMove exG7 (-1) 0).grid 1 1).state = .safe := by
  refine ⟨by decide, by decide, by decide, by decide, by decide⟩

/-- C8 amended: when the two most recent recorded directions are equal (two
consecutive accepted moves in the same direction), the tile vacated by the
next accepted move crystallizes if its archetype is sequence and it is
neither wall nor exit; the current move's own direction is pushed only after
the rule runs. -/
theorem sequence_tile_crystallizes_after_repeat (g : Game) (dx dy : Int)
    (e : Option DirName) (l : List (Option DirName))
    (hrd : g.recentDirections = l ++ [e, e])
    (hin : inBounds (g.player.1 + dx) (g.player.2 + dy))
    (hwall : ¬(g.grid (g.player.2 + dy) (g.player.1 + dx)).state = .wall)
    (harch : (g.grid g.player.2 g.player.1).archetype = .sequence)
    (hcurw : ¬(g.grid g.player.2 g.player.1).state = .wall)
    (hcure : ¬(g.grid g.player.2 g.player.1).state = .exit) :
    ((attemptMove g dx dy).grid g.player.2 g.player.1).state = .wall := by
  refine vacated_tile_crystallizes g dx dy hin hwall hcurw hcure ?_
  rw [harch]
  simp only [trigger]
  rw [hrd]
  have hslice : sliceLast 2 (l ++ [e, e]) = [e, e] := by
    unfold sliceLast
    have hlen : (l ++ [e, e]).length - 2 = l.length := by simp
    rw [hlen, List.drop_left]
  rw [hslice]
  simp [allEqHead]

/-- Witness for the amended C8: after the two consecutive south moves of
`exG8`, a third move south vacates the sequence tile (1,3) and
crystallizes it. -/
theorem sequence_tile_crystallizes_after_repeat_witness :
    ((attemptMove (runMoves exG8 [(0, 1), (0, 1)]) 0 1).grid 3 1).state = .wall :=
  sequence_tile_crystallizes_after_repeat (runMoves exG8 [(0, 1), (0, 1)]) 0 1
    (some .south) [some .north, some .east] (by decide) (by decide) (by decide)
    (by decide) (by decide) (by decide)

/-- Counterexample to C8 as stated: from `exG8` the player makes two
consecutive accepted moves south; the sequence tile (1,2) vacated by the
second of them stays safe — the trigger saw only one recorded repeat, so
crystallization does not happen on the second repeated move. -/
theorem sequence_second_repeat_counterexample :
    (exG8.grid 2 1).archetype = .sequence
    ∧ (runMoves exG8 [(0, 1)]).player = (1, 2)
    ∧ (runMoves exG8 [(0, 1), (0, 1)]).player = (1, 3)
    ∧ (runMoves exG8 [(0, 1), (0, 1)]).recentDirections
        = [some .north, some .east, some .south, some .south]
    ∧ ((runMoves exG8 [(0, 1), (0, 1)]).grid 2 1).state = .safe := by
  refine ⟨by decide, by decide, by decide, by decide, by decide⟩

theorem buildRowFrom_state (pool : List ArchetypeName) (y : Int) :
    ∀ (fuel x : Nat) (a : Int), ∀ t ∈ (buildRowFrom pool y x fuel a).1, t.state = .neutral := by
  intro fuel
  induction fuel with
  | zero =>
    intro x a t ht
    simp [buildRowFrom] at ht
  | succ n ih =>
    intro x a t ht
    simp only [buildRowFrom] at ht
    rcases List.mem_cons.mp ht with hh | hh
    · rw [hh]
      rfl
    · exact ih (x + 1) (nextA a) t hh

theorem buildRowsFrom_state (pool : List ArchetypeName) :
    ∀ (fuel y : Nat) (a : Int), ∀ row ∈ (buildRowsFrom pool y fuel a).1, ∀ t ∈ row, t.state = .neutral := by
  intro fuel
  induction fuel with
  | zero =>
    intro y a row hrow
    simp [buildRowsFrom] at hrow
  | succ n ih =>
    intro y a row hrow t ht
    simp only [buildRowsFrom] at hrow
    rcases List.mem_cons.mp hrow with hh | hh
    · exact buildRowFrom_state pool (y : Int) 18 0 a t (hh ▸ ht)
    · exact ih (y + 1) _ row hh t ht

theorem lookupGrid_neutral (rows : List (List Tile))
    (hrows : ∀ row ∈ rows, ∀ t ∈ row, t.state = .neutral) (y x : Int) :
    ((lookupGrid rows) y x).state = .neutral := by
  unfold lookupGrid
  split
  · rfl
  rcases Nat.lt_or_ge y.toNat rows.length with hy | hy
  · rw [List.getD_eq_getElem rows [] hy]
    have hrow := hrows rows[y.toNat] (List.getElem_mem hy)
    rcases Nat.lt_or_ge x.toNat (rows[y.toNat]).length with hx | hx
    · rw [List.getD_eq_getElem _ defaultTile hx]
      exact hrow _ (List.getElem_mem hx)
    · rw [List.getD_eq_default _ defaultTile hx]
      rfl
  · rw [List.getD_eq_default rows [] hy, List.getD_eq_default _ defaultTile (Nat.zero_le _)]
    rfl

theorem createGame_grid_base (seed : ℚ) (y x : Int)
    (h1 : ¬(y = 16 ∧ x = 16)) (h2 : ¬(y = 1 ∧ x = 1)) :
    ((createGame seed).grid y x).state = .neutral := by
  unfold createGame
  dsimp only
  rw [updateTile_apply, if_neg h1, updateTile_apply, if_neg h2]
  exact lookupGrid_neutral _ (buildRowsFrom_state _ 18 0 _) y x

theorem createGame_start_state (seed : ℚ) : ((createGame seed).grid 1 1).state = .safe := by
  unfold createGame
  dsimp only
  rw [updateTile_apply, if_neg (by decide), updateTile_apply, if_pos ⟨rfl, rfl⟩]

theorem createGame_first_move (seed : ℚ) (dx dy : Int)
    (harch : ((createGame seed).grid 1 1).archetype = .sequence)
    (hin : inBounds (1 + dx) (1 + dy))
    (hneut : ((createGame seed).grid (1 + dy) (1 + dx)).state = .neutral) :
    ((attemptMove (createGame seed) dx dy).grid 1 1).state = .wall := by
  refine vacated_tile_crystallizes (createGame seed) dx dy ?_ ?_ ?_ ?_ ?_
  · exact hin
  · show ¬((createGame seed).grid (1 + dy) (1 + dx)).state = .wall
    rw [hneut]
    decide
  · show ¬((createGame seed).grid 1 1).state = .wall
    rw [createGame_start_state]
    decide
  · show ¬((createGame seed).grid 1 1).state = .exit
    rw [createGame_start_state]
    decide
  · show trigger ((createGame seed).grid 1 1).archetype
      { (createGame seed).grid 1 1 with leaveCount := ((createGame seed).grid 1 1).leaveCount + 1 } (createGame seed) = true
    rw [harch]
    rfl

/-- C9: for a freshly created session whose start tile (1,1) has archetype
sequence, the very first move in any of the four unit directions is accepted
and crystallizes the start tile: the rule is evaluated before the move's
direction is pushed, and every-over-slice(-2) is vacuously true on a
recentDirections buffer holding fewer than 2 entries. -/
theorem first_move_crystallizes_sequence_start (seed : ℚ) (dx dy : Int)
    (hdir : (dx, dy) ∈ [((0 : Int), (-1 : Int)), (1, 0), (0, 1), (-1, 0)])
    (harch : ((createGame seed).grid 1 1).archetype = .sequence) :
    ((attemptMove (createGame seed) dx dy).grid 1 1).state = .wall := by
  simp only [List.mem_cons, List.not_mem_nil, or_false] at hdir
  rcases hdir with h | h | h | h <;>
    (injection h with h1 h2; subst h1; subst h2;
      exact createGame_first_move seed _ _ harch (by decide)
        (createGame_grid_base seed _ _ (by decide) (by decide)))

/-- Witness for C9: the seed-0 session has a sequence start tile, and its
first move east turns (1,1) into a wall. -/
theorem first_move_crystallizes_sequence_start_witness :
    ((attemptMove (createGame 0) 1 0).grid 1 1).state = .wall :=
  first_move_crystallizes_sequence_start 0 1 0 (by decide) (by decide)

theorem sum_range_add_one_at (h1 h2 : Nat → Nat) (n j : Nat) (hj : j ∈ Finset.range n)
    (heq : ∀ c ∈ Finset.range n, c ≠ j → h1 c = h2 c) (hjj : h1 j = h2 j + 1) :
    ∑ c ∈ Finset.range n, h1 c = (∑ c ∈ Finset.range n, h2 c) + 1 := by
  rw [← Finset.add_sum_erase _ h1 hj, ← Finset.add_sum_erase _ h2 hj, hjj]
  have hsum : ∑ c ∈ (Finset.range n).erase j, h1 c = ∑ c ∈ (Finset.range n).erase j, h2 c :=
    Finset.sum_congr rfl fun c hc => heq c (Finset.mem_of_mem_erase hc) (Finset.ne_of_mem_erase hc)
  rw [hsum]
  omega

theorem wallCount_congr (G1 G2 : Int → Int → Tile)
    (h : ∀ y x : Int, (G1 y x).state = (G2 y x).state) : wallCount G1 = wallCount G2 := by
  unfold wallCount
  refine Finset.sum_congr rfl fun b _ => Finset.sum_congr rfl fun c _ => ?_
  rw [h]

theorem wallCount_update_preserve (G : Int → Int → Tile) (y x : Int) (f : Tile → Tile)
    (hf : (f (G y x)).state = .wall ↔ (G y x).state = .wall) :
    wallCount (updateTile G y x f) = wallCount G := by
  unfold wallCount
  refine Finset.sum_congr rfl fun b _ => Finset.sum_congr rfl fun c _ => ?_
  rw [updateTile_apply]
  split
  · rename_i hp
    rw [hp.1, hp.2]
    exact if_congr hf rfl rfl
  · rfl

theorem wallCount_update_add_one (G : Int → Int → Tile) (y x : Int) (f : Tile → Tile)
    (hy0 : 0 ≤ y) (hy1 : y < 18) (hx0 : 0 ≤ x) (hx1 : x < 18)
    (hold : ¬(G y x).state = .wall) (hnew : (f (G y x)).state = .wall) :
    wallCount (updateTile G y x f) = wallCount G + 1 := by
  unfold wallCount
  have hyr : y.toNat ∈ Finset.range 18 := by
    rw [Finset.mem_range]
    omega
  have hxr : x.toNat ∈ Finset.range 18 := by
    rw [Finset.mem_range]
    omega
  have hycast : (y.toNat : Int) = y := Int.toNat_of_nonneg hy0
  have hxcast : (x.toNat : Int) = x := Int.toNat_of_nonneg hx0
  refine sum_range_add_one_at _ _ 18 y.toNat hyr ?_ ?_
  · intro b hb hbne
    refine Finset.sum_congr rfl fun c _ => ?_
    have hne : ¬((b : Int) = y ∧ (c : Int) = x) := fun hcon =>
      hbne (Int.natCast_inj.mp (hcon.1.trans hycast.symm))
    rw [updateTile_apply, if_neg hne]
  · refine sum_range_add_one_at _ _ 18 x.toNat hxr ?_ ?_
    · intro c hc hcne
      have hne : ¬((y.toNat : Int) = y ∧ (c : Int) = x) := fun hcon =>
        hcne (Int.natCast_inj.mp (hcon.2.trans hxcast.symm))
      rw [updateTile_apply, if_neg hne]
    · have hpos : ((y.toNat : Int) = y ∧ (x.toNat : Int) = x) := ⟨hycast, hxcast⟩
      rw [updateTile_apply, if_pos hpos, hycast, hxcast, if_pos hnew, if_neg hold]

theorem wallCount_decay (G : Int → Int → Tile) :
    wallCount (fun y x => decayTile (G y x)) = wallCount G :=
  wallCount_congr _ _ fun _ _ => decayTile_state _

theorem applyTileRule_inv (g : Game) (y x : Int)
    (hy0 : 0 ≤ y) (hy1 : y < 18) (hx0 : 0 ≤ x) (hx1 : x < 18)
    (h : g.crystallized = wallCount g.grid) :
    (applyTileRule g y x).crystallized = wallCount (applyTileRule g y x).grid := by
  unfold applyTileRule
  dsimp only
  split
  · exact h
  · rename_i hguard
    split
    · show g.crystallized + 1 = wallCount (updateTile g.grid y x _)
      rw [wallCount_update_add_one g.grid y x _ hy0 hy1 hx0 hx1 (fun hw => hguard (Or.inl hw)) rfl, h]
    · exact h

theorem attemptMove_player_inBounds (g : Game) (dx dy : Int)
    (h : inBounds g.player.1 g.player.2) :
    inBounds (attemptMove g dx dy).player.1 (attemptMove g dx dy).player.2 := by
  unfold attemptMove
  dsimp only
  split
  · exact h
  split
  · exact h
  rename_i hoob _
  split
  · exact hoob
  · split
    · exact hoob
    · exact hoob

theorem attemptMove_inv (g : Game) (dx dy : Int)
    (hpl : inBounds g.player.1 g.player.2)
    (h : g.crystallized = wallCount g.grid) :
    (attemptMove g dx dy).crystallized = wallCount (attemptMove g dx dy).grid := by
  unfold attemptMove
  dsimp only
  split
  · exact h
  split
  · exact h
  rename_i hoob hwall
  have hbounds : 0 ≤ g.player.1 ∧ g.player.1 < 18 ∧ 0 ≤ g.player.2 ∧ g.player.2 < 18 := by
    unfold inBounds gridSize at hpl
    omega
  have h1 : ({ g with grid := updateTile g.grid g.player.2 g.player.1 (fun t => { t with leaveCount := t.leaveCount + 1 }) } : Game).crystallized
      = wallCount ({ g with grid := updateTile g.grid g.player.2 g.player.1 (fun t => { t with leaveCount := t.leaveCount + 1 }) } : Game).grid := by
    show g.crystallized = wallCount (updateTile g.grid g.player.2 g.player.1 _)
    rw [wallCount_update_preserve _ _ _ _ Iff.rfl]
    exact h
  have h2 := applyTileRule_inv _ g.player.2 g.player.1 hbounds.2.2.1 hbounds.2.2.2 hbounds.1 hbounds.2.1 h1
  have h3 : (applyTileRule { g with grid := updateTile g.grid g.player.2 g.player.1 (fun t => { t with leaveCount := t.leaveCount + 1 }) } g.player.2 g.player.1).crystallized
      = wallCount (updateTile (applyTileRule { g with grid := updateTile g.grid g.player.2 g.player.1 (fun t => { t with leaveCount := t.leaveCount + 1 }) } g.player.2 g.player.1).grid
          (g.player.2 + dy) (g.player.1 + dx) (fun t => { t with lastEntry := findDir dx dy, visits := t.visits + 1 })) := by
    rw [wallCount_update_preserve _ _ _ _ Iff.rfl]
    exact h2
  split
  · dsimp only [draw]
    rw [wallCount_decay]
    exact h3
  · rename_i hnotexit
    dsimp only [draw, checkFailure]
    rw [wallCount_decay]
    split
    · rename_i hnc
      dsimp only
      rw [wallCount_update_preserve]
      · exact h3
      · constructor
        · intro hcon
          exact TileState.noConfusion hcon
        · intro hcon
          rw [hnc] at hcon
          exact TileState.noConfusion hcon
    · dsimp only
      exact h3

theorem stepOp_inv (g : Game) (o : Op)
    (hpl : inBounds g.player.1 g.player.2) (h : g.crystallized = wallCount g.grid) :
    (stepOp g o).crystallized = wallCount (stepOp g o).grid
    ∧ inBounds (stepOp g o).player.1 (stepOp g o).player.2 := by
  cases o with
  | move dx dy => exact ⟨attemptMove_inv g dx dy hpl h, attemptMove_player_inBounds g dx dy hpl⟩
  | reveal => exact ⟨h, hpl⟩
  | draw =>
    refine ⟨?_, hpl⟩
    show g.crystallized = wallCount (fun y x => decayTile (g.grid y x))
    rw [wallCount_decay]
    exact h

theorem createGame_wallCount (seed : ℚ) : wallCount (createGame seed).grid = 0 := by
  unfold wallCount
  refine Finset.sum_eq_zero fun y hy => Finset.sum_eq_zero fun x hx => ?_
  have hstate : ((createGame seed).grid ↑y ↑x).state ≠ .wall := by
    by_cases h1 : ((y : Int) = 16 ∧ (x : Int) = 16)
    · rw [h1.1, h1.2, createGame_exit_state]
      decide
    · by_cases h2 : ((y : Int) = 1 ∧ (x : Int) = 1)
      · rw [h2.1, h2.2, createGame_start_state]
        decide
      · rw [createGame_grid_base seed _ _ h1 h2]
        decide
  simp [hstate]

theorem runOps_inv (os : List Op) : ∀ g : Game, inBounds g.player.1 g.player.2 →
    g.crystallized = wallCount g.grid →
    (runOps g os).crystallized = wallCount (runOps g os).grid
    ∧ inBounds (runOps g os).player.1 (runOps g os).player.2 := by
  induction os with
  | nil =>
    intro g hp h
    exact ⟨h, hp⟩
  | cons o os ih =>
    intro g hp h
    obtain ⟨h1, h2⟩ := stepOp_inv g o hp h
    exact ih (stepOp g o) h2 h1

/-- C10: after any sequence of core operations (moves, reveal presses and
animation ticks) on a fresh session, the crystallized counter equals the
number of grid tiles in state wall. -/
theorem crystallized_equals_wall_tiles (seed : ℚ) (os : List Op) :
    (runOps (createGame seed) os).crystallized = wallCount (runOps (createGame seed) os).grid :=
  (runOps_inv os (createGame seed) (by show inBounds 1 1; decide)
    (by rw [createGame_wallCount]; rfl)).1

/-- The seed conversion used by `createGame` equals the mathematical floor of
`seed * 10^9`, i.e. `Math.floor(seed * 1e9)` on the exact rational value. -/
theorem seed_conversion_eq_floor (q : ℚ) :
    (q.num * 1000000000).fdiv (q.den : Int) = ⌊(q * 1000000000 : ℚ)⌋ := by
  have hden0 : ((q.den : ℕ) : ℚ) ≠ 0 := Nat.cast_ne_zero.mpr q.den_nz
  have hnum : (q.num : ℚ) = q * (q.den : ℚ) := (div_eq_iff hden0).mp (Rat.num_div_den q)
  have hq : (q * 1000000000 : ℚ) = ((q.num * 1000000000 : ℤ) : ℚ) / ((q.den : ℕ) : ℚ) := by
    rw [eq_div_iff hden0]
    push_cast
    rw [mul_right_comm, ← hnum]
  rw [hq, Rat.floor_intCast_div_natCast]
  exact Int.fdiv_eq_ediv _ (Int.natCast_nonneg _)

end Blocke
